import Mathlib

/-!
Verification development for the Calliope fiction-writing tool
(`src/calliope`).  The Python sources are shallowly embedded: strings are
Lean `String`s (ASCII semantics for case folding and word characters, which
is the domain the program is used on), the file system is an association
list from path strings to file contents, and the pluggable AI provider is a
function from the prompt, system prompt and temperature to `Except` of the
gateway error and the returned text.
-/

set_option autoImplicit false

namespace Calliope

/-! ## Character and string helpers (models of Python `str` primitives) -/

/-- ASCII model of Python's word character class used by the regex
word-boundary assertion in `consistency.extract_mentions`:
letters, digits and underscore. -/
def isWordChar (c : Char) : Bool :=
  decide ((65 ≤ c.toNat ∧ c.toNat ≤ 90) ∨ (97 ≤ c.toNat ∧ c.toNat ≤ 122) ∨
    (48 ≤ c.toNat ∧ c.toNat ≤ 57) ∨ c.toNat = 95)

/-- ASCII model of the case folding performed by `str.lower()` and by
`re.IGNORECASE`: uppercase ASCII letters are shifted to lowercase,
everything else is unchanged. -/
def lowerChar (c : Char) : Char :=
  if 65 ≤ c.toNat ∧ c.toNat ≤ 90 then Char.ofNat (c.toNat + 32) else c

/-- Model of Python `str.lower()` (ASCII). -/
def pyLower (s : String) : String := ⟨s.data.map lowerChar⟩

/-- Case-insensitive character comparison, as performed by a regex match
under `re.IGNORECASE`. -/
def charCI (a b : Char) : Bool := lowerChar a == lowerChar b

/-- Python whitespace characters stripped by `str.strip()` (ASCII range). -/
def isPySpace (c : Char) : Bool :=
  decide (c.toNat = 32 ∨ (9 ≤ c.toNat ∧ c.toNat ≤ 13) ∨ (28 ≤ c.toNat ∧ c.toNat ≤ 31))

/-- Model of Python `str.strip()` with no argument: remove leading and
trailing whitespace. -/
def pyStrip (s : String) : String :=
  ⟨((s.data.dropWhile isPySpace).reverse.dropWhile isPySpace).reverse⟩

/-- Model of Python `sep.join(items)`. -/
def pyJoin (sep : String) : List String → String
  | [] => ""
  | [x] => x
  | x :: y :: xs => x ++ sep ++ pyJoin sep (y :: xs)

/-- Model of Python `str.replace` for the single-character patterns used in
this repository (`":"`, `"-"`, `" "`): every occurrence of `c` is replaced
by the string `r`. -/
def replaceChar (s : String) (c : Char) (r : String) : String :=
  ⟨s.data.foldr (fun ch acc => if ch = c then r.data ++ acc else ch :: acc) []⟩

/-- Line-break characters recognised by Python `str.splitlines()`. -/
def isLineBreak (c : Char) : Bool :=
  decide (c.toNat = 10 ∨ c.toNat = 13 ∨ c.toNat = 11 ∨ c.toNat = 12 ∨
    c.toNat = 28 ∨ c.toNat = 29 ∨ c.toNat = 30 ∨ c.toNat = 133 ∨
    c.toNat = 8232 ∨ c.toNat = 8233)

/-- Worker for `splitlines`: `acc` holds the current line, reversed. -/
def splitlinesAux : List Char → List Char → List String
  | [], acc => if acc.isEmpty then [] else [⟨acc.reverse⟩]
  | '\r' :: '\n' :: cs, acc => ⟨acc.reverse⟩ :: splitlinesAux cs []
  | c :: cs, acc =>
    if isLineBreak c then ⟨acc.reverse⟩ :: splitlinesAux cs []
    else splitlinesAux cs (c :: acc)

/-- Model of Python `str.splitlines()`: split at line-break characters,
treating `"\r\n"` as a single break, with no trailing empty line for a
trailing break. -/
def splitlines (s : String) : List String := splitlinesAux s.data []

/-- Boolean substring test: `need` occurs contiguously inside `hay`. -/
def containsSub (hay need : String) : Bool :=
  (List.range (hay.data.length + 1)).any
    (fun s => decide ((hay.data.drop s).take need.data.length = need.data))

/-! ## The mention extractor (`consistency.extract_mentions`)

The source builds the pattern `rf"\b{name}\b"` — the name is interpolated
into the regex *unescaped* — and calls `re.search(pattern, line,
re.IGNORECASE)`.  We embed the semantics of that pattern family: each
character of the name matches itself case-insensitively, except `'.'`,
which is the regex wildcard and matches any character; `\b` asserts a word
boundary.  (Names containing other regex metacharacters are outside the
embedding's domain.) -/

/-- Whether position `i` of the line holds a word character (out-of-range
positions count as non-word, matching the regex semantics at the ends). -/
def wordAt (l : List Char) (i : Nat) : Bool := isWordChar (l.getD i ' ')

/-- The regex word-boundary assertion `\b` at position `p`: exactly one of
the two neighbouring positions holds a word character. -/
def boundaryAt (l : List Char) (p : Nat) : Bool :=
  (if p = 0 then false else wordAt l (p - 1)) != wordAt l p

/-- How one character of the unescaped interpolated name matches a text
character: `'.'` is the regex wildcard, anything else matches
case-insensitively. -/
def patCharMatches (pc c : Char) : Bool := pc == '.' || charCI pc c

/-- The interpolated name matches a prefix of `cs`, character by character. -/
def matchChars : List Char → List Char → Bool
  | [], _ => true
  | _ :: _, [] => false
  | pc :: ps, c :: cs => patCharMatches pc c && matchChars ps cs

/-- The pattern `\b{name}\b` matches in `l` at start position `s`. -/
def regexSearchAt (name l : List Char) (s : Nat) : Bool :=
  boundaryAt l s && matchChars name (l.drop s) && boundaryAt l (s + name.length)

/-- Model of `re.search(rf"\b{name}\b", line, re.IGNORECASE) is not None`. -/
def lineSearch (name line : String) : Bool :=
  (List.range (line.data.length + 1)).any (regexSearchAt name.data line.data)

/-- The 1-based indices of the lines on which the regex search succeeds for
`name`, in order — the list built for one name by the loop in
`extract_mentions`. -/
def mentionLines (name : String) (lines : List String) : List Nat :=
  ((lines.enumFrom 1).filter (fun p => lineSearch name p.2)).map Prod.fst

/-- Model of `consistency.extract_mentions`: mapping (as an association
list in key insertion order) from each character name to the line numbers
where the regex search finds it, names with no hits omitted.  `names` plays
the role of the `character_names` iterable; as in the Python dict built
there, names are treated as a set (the callers pass the duplicate-free
`CharacterStore.list_names()`). -/
def extract_mentions (text : String) (names : List String) : List (String × List Nat) :=
  (names.map (fun n => (n, mentionLines n (splitlines text)))).filter
    (fun p => !p.2.isEmpty)

/-! ### Specification-side mention extraction

Written from the spec's words (§4.3): a *literal* case-insensitive
whole-word occurrence — every character of the name matches literally
(case-insensitively), and the characters adjacent to the occurrence, when
they exist, are not word characters. -/

/-- The name occurs literally (case-insensitively) as a prefix of `cs`. -/
def litMatchChars : List Char → List Char → Bool
  | [], _ => true
  | _ :: _, [] => false
  | pc :: ps, c :: cs => charCI pc c && litMatchChars ps cs

/-- A literal case-insensitive whole-word occurrence of `name` in `l`
starting at position `s`: the name occurs literally there and the adjacent
characters (if any) are not word characters. -/
def litWholeWordAt (name l : List Char) (s : Nat) : Bool :=
  litMatchChars name (l.drop s) &&
    (if s = 0 then true else !wordAt l (s - 1)) && !wordAt l (s + name.length)

/-- The line contains a literal case-insensitive whole-word occurrence of
`name`. -/
def litSearch (name line : String) : Bool :=
  (List.range (line.data.length + 1)).any (litWholeWordAt name.data line.data)

/-- Ordered 1-based numbers of the lines holding a literal whole-word
occurrence of `name` (specification side). -/
def specMentionLines (name : String) (lines : List String) : List Nat :=
  ((lines.enumFrom 1).filter (fun p => litSearch name p.2)).map Prod.fst

/-- The mention map as the specification describes it: exactly the names
with at least one literal case-insensitive whole-word occurrence, each
mapped to the ordered 1-based numbers of the lines where it occurs. -/
def specExtractMentions (text : String) (names : List String) : List (String × List Nat) :=
  (names.map (fun n => (n, specMentionLines n (splitlines text)))).filter
    (fun p => !p.2.isEmpty)

/-! ## Lemmas about the mention extractor -/

theorem toNat_ofNat_of_lt {n : Nat} (h : n < 55296) : (Char.ofNat n).toNat = n := by
  simp only [Char.ofNat, Nat.isValidChar]
  rw [dif_pos (Or.inl h)]
  rfl

theorem isWordChar_lowerChar (c : Char) : isWordChar (lowerChar c) = isWordChar c := by
  unfold lowerChar
  split
  · rename_i h
    have ht : (Char.ofNat (c.toNat + 32)).toNat = c.toNat + 32 :=
      toNat_ofNat_of_lt (by omega)
    simp only [isWordChar, ht, decide_eq_decide]
    omega
  · rfl

theorem isWordChar_of_charCI {a b : Char} (h : charCI a b = true) :
    isWordChar a = isWordChar b := by
  have hl : lowerChar a = lowerChar b := beq_iff_eq.mp h
  rw [← isWordChar_lowerChar a, ← isWordChar_lowerChar b, hl]

theorem word_not_dot {pc : Char} (h : isWordChar pc = true) : (pc == '.') = false := by
  cases hb : pc == '.' with
  | false => rfl
  | true =>
    have he : pc = '.' := beq_iff_eq.mp hb
    subst he
    exact absurd h (by decide)

theorem matchChars_eq_lit {name : List Char} (hW : ∀ c ∈ name, isWordChar c = true)
    (cs : List Char) : matchChars name cs = litMatchChars name cs := by
  induction name generalizing cs with
  | nil => cases cs <;> rfl
  | cons pc ps ih =>
    cases cs with
    | nil => rfl
    | cons c cs =>
      have hpc : isWordChar pc = true := hW pc (by simp)
      simp [matchChars, litMatchChars, patCharMatches, word_not_dot hpc,
        ih (fun c hc => hW c (by simp [hc]))]

theorem litMatchChars_getD {ps cs : List Char} (h : litMatchChars ps cs = true)
    {i : Nat} (hi : i < ps.length) :
    charCI (ps.getD i ' ') (cs.getD i ' ') = true := by
  induction ps generalizing cs i with
  | nil => simp at hi
  | cons p ps ih =>
    cases cs with
    | nil => simp [litMatchChars] at h
    | cons c cs =>
      simp only [litMatchChars, Bool.and_eq_true] at h
      cases i with
      | zero => simpa using h.1
      | succ i => simpa using ih h.2 (by simpa using Nat.lt_of_succ_lt_succ hi)

theorem getD_drop {α : Type} (l : List α) (s i : Nat) (d : α) :
    (l.drop s).getD i d = l.getD (s + i) d := by
  simp [List.getD_eq_getElem?_getD, List.getElem?_drop]

theorem wordAt_of_match {name l : List Char} {s : Nat}
    (h : litMatchChars name (l.drop s) = true)
    (hW : ∀ c ∈ name, isWordChar c = true) {i : Nat} (hi : i < name.length) :
    wordAt l (s + i) = true := by
  have h1 := litMatchChars_getD h hi
  have h2 := isWordChar_of_charCI h1
  have hm : isWordChar (name.getD i ' ') = true := by
    rw [List.getD_eq_getElem?_getD, List.getElem?_eq_getElem hi]
    exact hW _ (List.getElem_mem hi)
  unfold wordAt
  rw [← getD_drop, ← h2]
  exact hm

theorem searchAt_eq {name l : List Char} (hne : name ≠ [])
    (hW : ∀ c ∈ name, isWordChar c = true) (s : Nat) :
    regexSearchAt name l s = litWholeWordAt name l s := by
  unfold regexSearchAt litWholeWordAt
  rw [matchChars_eq_lit hW]
  cases hm : litMatchChars name (l.drop s) with
  | false => simp
  | true =>
    have hlen : 1 ≤ name.length := List.length_pos.mpr hne
    have hw0 : wordAt l s = true := by
      have := wordAt_of_match hm hW (i := 0) (by omega)
      simpa using this
    have hlast : wordAt l (s + name.length - 1) = true := by
      have := wordAt_of_match hm hW (i := name.length - 1) (by omega)
      have he : s + (name.length - 1) = s + name.length - 1 := by omega
      rwa [he] at this
    simp only [boundaryAt, hw0]
    rw [if_neg (by omega : ¬ s + name.length = 0), hlast]
    by_cases hs : s = 0 <;> simp [hs]

theorem lineSearch_eq_lit {name : String} (hne : name.data ≠ [])
    (hW : ∀ c ∈ name.data, isWordChar c = true) (line : String) :
    lineSearch name line = litSearch name line := by
  unfold lineSearch litSearch
  have hf : regexSearchAt name.data line.data = litWholeWordAt name.data line.data :=
    funext (searchAt_eq hne hW)
  rw [hf]

/-- Claim C1 (amended): for names that are nonempty strings of word
characters — the domain on which the unescaped interpolated regex behaves
literally — the extractor returns exactly the mention map the
specification describes: the names with at least one case-insensitive
whole-word literal occurrence, each mapped to the ordered 1-based numbers
of the lines on which it occurs; names with zero occurrences are absent. -/
theorem extract_mentions_eq_spec_of_word_names (text : String) (names : List String)
    (hW : ∀ n ∈ names, n.data ≠ [] ∧ ∀ c ∈ n.data, isWordChar c = true) :
    extract_mentions text names = specExtractMentions text names := by
  unfold extract_mentions specExtractMentions
  congr 1
  apply List.map_congr_left
  intro n hn
  obtain ⟨h1, h2⟩ := hW n hn
  unfold mentionLines specMentionLines
  have hf : (fun p : Nat × String => lineSearch n p.2) =
      (fun p : Nat × String => litSearch n p.2) :=
    funext (fun p => lineSearch_eq_lit h1 h2 p.2)
  rw [hf]

/-- Witness for C1's amended theorem at the spec's own example. -/
theorem extract_mentions_eq_spec_witness :
    (∀ n ∈ ["Elena", "Marcus"], n.data ≠ [] ∧ ∀ c ∈ n.data, isWordChar c = true) ∧
      extract_mentions "Elena walks in.\nMarcus waves." ["Elena", "Marcus"] =
        specExtractMentions "Elena walks in.\nMarcus waves." ["Elena", "Marcus"] :=
  ⟨by decide, extract_mentions_eq_spec_of_word_names _ _ (by decide)⟩

/-- Counterexample to claim C1 as stated: the name is interpolated into
the regex unescaped, so for the name `"Dr."` the dot acts as the regex
wildcard.  On the text `"Drx"` the extractor reports a mention on line 1
even though `"Dr."` has no whole-word literal occurrence there (the
specification-side map is empty). -/
theorem extract_mentions_dot_not_literal_counterexample :
    extract_mentions "Drx" ["Dr."] = [("Dr.", [1])] ∧
      specExtractMentions "Drx" ["Dr."] = [] := by
  constructor <;> rfl

/-! ### Invariants of the extracted line-number lists (claim C9) -/

theorem lookup_mem {α β : Type} [BEq α] [LawfulBEq α] {l : List (α × β)} {a : α} {b : β}
    (h : List.lookup a l = some b) : (a, b) ∈ l := by
  induction l with
  | nil => simp [List.lookup] at h
  | cons p l ih =>
    rw [List.lookup] at h
    cases hb : a == p.1 with
    | true =>
      rw [hb] at h
      simp only [Option.some.injEq] at h
      have hp : p = (a, b) := by
        obtain ⟨p1, p2⟩ := p
        have := beq_iff_eq.mp hb
        simp_all
      simp [hp]
    | false =>
      rw [hb] at h
      exact List.mem_cons_of_mem _ (ih h)

theorem mentionLines_sublist (name : String) (lines : List String) :
    (mentionLines name lines).Sublist (List.range' 1 lines.length) := by
  have hsub := List.Sublist.map Prod.fst
    (List.filter_sublist (p := fun p : Nat × String => lineSearch name p.2)
      (List.enumFrom 1 lines))
  rwa [List.enumFrom_map_fst] at hsub

theorem mentionLines_pairwise (name : String) (lines : List String) :
    (mentionLines name lines).Pairwise (· < ·) :=
  List.Pairwise.sublist (mentionLines_sublist name lines)
    (List.pairwise_lt_range' 1 lines.length)

/-- Claim C9: every line-number list in the extractor's result is strictly
increasing (hence holds each line number at most once), and every entry is
between 1 and the number of lines of the text. -/
theorem extract_mentions_lines_invariants (text : String) (names : List String)
    (name : String) (l : List Nat)
    (h : List.lookup name (extract_mentions text names) = some l) :
    l.Pairwise (· < ·) ∧ l.Nodup ∧ ∀ x ∈ l, 1 ≤ x ∧ x ≤ (splitlines text).length := by
  have hmem := lookup_mem h
  unfold extract_mentions at hmem
  have hmem' := List.mem_of_mem_filter hmem
  obtain ⟨n, _, hpair⟩ := List.mem_map.mp hmem'
  have hl : l = mentionLines name (splitlines text) := by
    have h1 : n = name := congrArg Prod.fst hpair
    have h2 := congrArg Prod.snd hpair
    simp only at h2
    rw [← h2, h1]
  subst hl
  refine ⟨mentionLines_pairwise _ _, ?_, ?_⟩
  · exact List.Pairwise.imp (fun h => Nat.ne_of_lt h) (mentionLines_pairwise _ _)
  · intro x hx
    have := (mentionLines_sublist name (splitlines text)).mem hx
    have := List.mem_range'_1.mp this
    omega

/-- Witness for C9 at a concrete text and name set. -/
theorem extract_mentions_lines_invariants_witness :
    List.lookup "Elena" (extract_mentions "Elena here.\nNothing.\nelena again." ["Elena"]) =
      some [1, 3] ∧
    (([1, 3] : List Nat).Pairwise (· < ·) ∧ ([1, 3] : List Nat).Nodup ∧
      ∀ x ∈ ([1, 3] : List Nat),
        1 ≤ x ∧ x ≤ (splitlines "Elena here.\nNothing.\nelena again.").length) :=
  ⟨by decide,
    extract_mentions_lines_invariants "Elena here.\nNothing.\nelena again." ["Elena"]
      "Elena" [1, 3] (by decide)⟩

/-! ## Python values and the character store (`character_db.CharacterStore`)

Character records are Python dicts with dynamic values.  We embed the
value universe needed by the repository (strings, ints, floats — modelled
as rationals —, lists and nested dicts) and model a dict as an association
list in key insertion order, which is exactly the iteration order the
Python code relies on. -/

/-- Universe of Python values stored in character records. -/
inductive Value where
  | vstr : String → Value
  | vint : Int → Value
  | vrat : ℚ → Value
  | vlist : List Value → Value
  | vdict : List (String × Value) → Value

/-- Model of Python `repr` for `Value` (used when rendering values nested
inside lists or dicts; string escapes and float formatting are
approximated, which only affects prompt text, never control flow). -/
def pyRepr : Value → String
  | .vstr s => "\x27" ++ s ++ "\x27"
  | .vint i => toString i
  | .vrat q => toString q
  | .vlist l => "[" ++ pyJoin ", " (l.attach.map (fun x => pyRepr x.1)) ++ "]"
  | .vdict d =>
    "\x7b" ++
      pyJoin ", " (d.attach.map (fun kv => "\x27" ++ kv.1.1 ++ "\x27: " ++ pyRepr kv.1.2)) ++
      "\x7d"
decreasing_by
  · have := List.sizeOf_lt_of_mem x.2
    simp only [Value.vlist.sizeOf_spec]
    omega
  · have h1 := List.sizeOf_lt_of_mem kv.2
    have h2 : sizeOf kv.1.2 < sizeOf kv.1 := by
      obtain ⟨a, b⟩ := kv.1
      simp only [Prod.mk.sizeOf_spec]
      omega
    simp only [Value.vdict.sizeOf_spec]
    omega

/-- Model of Python `str()` on a value (equal to the value itself for
strings, `repr`-based for containers, as in CPython). -/
def pyStr : Value → String
  | .vstr s => s
  | v => pyRepr v

/-- Model of Python truthiness for the embedded value universe. -/
def pyTruthy : Value → Bool
  | .vstr s => !s.isEmpty
  | .vint i => decide (i ≠ 0)
  | .vrat q => decide (q ≠ 0)
  | .vlist l => !l.isEmpty
  | .vdict d => !d.isEmpty

/-- A character record: a Python dict in key insertion order. -/
abbrev Character : Type := List (String × Value)

/-- Model of `dict.get(k)` (no default): the value at the first matching
key. -/
def dictGet (c : Character) (k : String) : Option Value := List.lookup k c

/-- The record's name as the store reads it:
`str(char.get("name", ""))`. -/
def getNameStr (c : Character) : String := pyStr ((dictGet c "name").getD (.vstr ""))

/-- Model of a Python dict item assignment `d[k] = v`: replace the value
at the existing key (keeping its position), otherwise append the new
binding at the end. -/
def dictSet : Character → String → Value → Character
  | [], k, v => [(k, v)]
  | (k0, v0) :: rest, k, v =>
    if k0 == k then (k0, v) :: rest else (k0, v0) :: dictSet rest k v

/-- Model of Python `d.update(u)`: item assignment for each binding of `u`
in order. -/
def dictUpdate (d u : Character) : Character :=
  u.foldl (fun acc kv => dictSet acc kv.1 kv.2) d

/-- Model of Python `d.setdefault(k, v)`: insert `v` at `k` only when the
key is absent. -/
def setdefault (d : Character) (k : String) (v : Value) : Character :=
  if (List.lookup k d).isSome then d else d ++ [(k, v)]

/-- Truthiness of an optional record, as in `if self.get(...)` — `None`
and the empty dict are falsy. -/
def truthyOptChar : Option Character → Bool
  | none => false
  | some c => !c.isEmpty

/-- In-memory store state: the `"characters"` entry of the YAML-backed
`_data` mapping, in insertion order. -/
structure StoreState where
  characters : List Character

/-- Store-level errors (`ValueError` in the source; DuplicateName and
NotFound in the spec's vocabulary), carrying the message. -/
inductive DbError where
  | duplicateName : String → DbError
  | notFound : String → DbError

namespace CharacterStore

/-- Model of `CharacterStore.get`: first record whose name matches
case-insensitively (the `deepcopy` of the source is the identity in this
value model). -/
def get (st : StoreState) (name : String) : Option Character :=
  st.characters.find? (fun c => pyLower (getNameStr c) == pyLower name)

/-- Model of `CharacterStore.list_names`: the names of records with a
truthy `"name"` value, sorted ascending (Python `sorted`, embedded as an
insertion sort over the code-point order). -/
def insertSorted (x : String) : List String → List String
  | [] => [x]
  | y :: ys => if y < x then y :: insertSorted x ys else x :: y :: ys

/-- Sorted list of character names (see `insertSorted`). -/
def list_names (st : StoreState) : List String :=
  (st.characters.filterMap (fun c =>
      match dictGet c "name" with
      | some v => if pyTruthy v then some (pyStr v) else none
      | none => none)).foldr insertSorted []

/-- The timestamps stamped onto a freshly added record when absent. -/
def stampNew (c : Character) (now : String) : Character :=
  setdefault (setdefault c "created_at" (.vstr now)) "last_modified" (.vstr now)

/-- Model of `CharacterStore.add`.  The second component of the result is
the in-memory state after the call, the third the record set persisted on
disk (`save_characters` writes the full set; YAML encoding is treated as
the identity on the record list).  On the duplicate error both are
unchanged, as the exception is raised before any mutation. -/
def add (st : StoreState) (disk : List Character) (c : Character) (now : String) :
    Except DbError Character × StoreState × List Character :=
  if truthyOptChar (get st (getNameStr c)) then
    (.error (.duplicateName ("Character \x27" ++
        ((dictGet c "name").map pyStr).getD "None" ++ "\x27 already exists.")),
      st, disk)
  else
    let stored := stampNew c now
    (.ok stored, ⟨st.characters ++ [stored]⟩, st.characters ++ [stored])

/-- The merged record built by `update`: shallow dict merge of the partial
update into the stored record, then the `last_modified` refresh. -/
def mergeRecord (c updates : Character) (now : String) : Character :=
  dictSet (dictUpdate c updates) "last_modified" (.vstr now)

/-- Worker for `update`: walk the record list, replace the first record
whose name matches case-insensitively by the merged record, and return the
merged record with the new list; `none` when no record matches. -/
def updateChars (chars : List Character) (name : String) (updates : Character)
    (now : String) : Option (Character × List Character) :=
  match chars with
  | [] => none
  | c :: rest =>
    if pyLower (getNameStr c) == pyLower name then
      some (mergeRecord c updates now, mergeRecord c updates now :: rest)
    else
      match updateChars rest name updates now with
      | none => none
      | some (m, rest') => some (m, c :: rest')

/-- Model of `CharacterStore.update`: shallow dict merge of the partial
update into the first matching record, refreshing `last_modified`, then
persisting; NotFound when no record matches. -/
def update (st : StoreState) (disk : List Character) (name : String)
    (updates : Character) (now : String) :
    Except DbError Character × StoreState × List Character :=
  match updateChars st.characters name updates now with
  | none => (.error (.notFound ("Character \x27" ++ name ++ "\x27 not found.")), st, disk)
  | some (m, chars') => (.ok m, ⟨chars'⟩, chars')

end CharacterStore

/-! ## Lemmas about the character store -/

theorem pyLower_empty_iff (s : String) : pyLower s = "" ↔ s = "" := by
  constructor
  · intro h
    have hd : (pyLower s).data = [] := congrArg String.data h
    have : s.data.map lowerChar = [] := hd
    have hnil : s.data = [] := List.map_eq_nil_iff.mp this
    cases s
    simp_all
  · intro h
    subst h
    rfl

theorem lookup_ne_nil {α β : Type} [BEq α] {c : List (α × β)} {k : α} {v : β}
    (h : List.lookup k c = some v) : c ≠ [] := by
  intro hc
  subst hc
  simp [List.lookup] at h

theorem name_key_of_getNameStr_ne {c : Character} (h : getNameStr c ≠ "") :
    ∃ v, dictGet c "name" = some v := by
  cases hv : dictGet c "name" with
  | none =>
    exfalso
    apply h
    unfold getNameStr
    rw [hv]
    rfl
  | some v => exact ⟨v, rfl⟩

theorem lookup_append {α β : Type} [BEq α] (l₁ l₂ : List (α × β)) (k : α) :
    List.lookup k (l₁ ++ l₂) =
      match List.lookup k l₁ with
      | some v => some v
      | none => List.lookup k l₂ := by
  induction l₁ with
  | nil => simp [List.lookup]
  | cons p l ih =>
    rw [List.cons_append, List.lookup, List.lookup]
    cases hb : k == p.1 <;> simp [ih]

theorem dictGet_setdefault_self (d : Character) (k : String) (v : Value) :
    dictGet (setdefault d k v) k = some ((dictGet d k).getD v) := by
  unfold setdefault dictGet
  cases h : List.lookup k d with
  | some w => simp [h]
  | none => simp [h, lookup_append, List.lookup]

theorem dictGet_setdefault_ne (d : Character) (k : String) (v : Value) {q : String}
    (hq : q ≠ k) : dictGet (setdefault d k v) q = dictGet d q := by
  unfold setdefault dictGet
  cases h : List.lookup k d with
  | some w => simp [h]
  | none =>
    have hb : (q == k) = false := beq_eq_false_iff_ne.mpr hq
    simp only [h, Option.isSome_none, Bool.false_eq_true, if_false, lookup_append,
      List.lookup, hb, cond_false]
    cases List.lookup q d <;> rfl

theorem dictGet_dictSet_self (d : Character) (k : String) (v : Value) :
    dictGet (dictSet d k v) k = some v := by
  induction d with
  | nil => simp [dictSet, dictGet, List.lookup]
  | cons p d ih =>
    obtain ⟨k0, v0⟩ := p
    unfold dictSet
    cases hb : k0 == k with
    | true =>
      have : k0 = k := beq_iff_eq.mp hb
      subst this
      simp [dictGet, List.lookup]
    | false =>
      have hne : (k == k0) = false := by
        have : k0 ≠ k := beq_eq_false_iff_ne.mp hb
        exact beq_eq_false_iff_ne.mpr (Ne.symm this)
      simp only [if_false, Bool.false_eq_true]
      unfold dictGet at ih ⊢
      rw [List.lookup, hne]
      exact ih

theorem dictGet_dictSet_ne (d : Character) (k : String) (v : Value) {q : String}
    (hq : q ≠ k) : dictGet (dictSet d k v) q = dictGet d q := by
  induction d with
  | nil =>
    have : (q == k) = false := beq_eq_false_iff_ne.mpr hq
    simp [dictSet, dictGet, List.lookup, this]
  | cons p d ih =>
    obtain ⟨k0, v0⟩ := p
    unfold dictSet
    cases hb : k0 == k with
    | true =>
      have hk : k0 = k := beq_iff_eq.mp hb
      subst hk
      have : (q == k0) = false := beq_eq_false_iff_ne.mpr hq
      simp [dictGet, List.lookup, this]
    | false =>
      simp only [if_false, Bool.false_eq_true]
      unfold dictGet at ih ⊢
      rw [List.lookup, List.lookup]
      cases hqb : q == k0 <;> simp [ih]

theorem lookup_eq_none_of_not_mem_keys {α β : Type} [BEq α] [LawfulBEq α]
    {l : List (α × β)} {k : α} (h : k ∉ l.map Prod.fst) : List.lookup k l = none := by
  induction l with
  | nil => rfl
  | cons p l ih =>
    rw [List.lookup]
    have h1 : k ≠ p.1 := by
      intro he
      exact h (by simp [he])
    have hb : (k == p.1) = false := beq_eq_false_iff_ne.mpr h1
    rw [hb]
    exact ih (fun hm => h (List.mem_cons_of_mem _ hm))

theorem dictGet_dictUpdate (d u : Character) (hu : (u.map Prod.fst).Nodup) (k : String) :
    dictGet (dictUpdate d u) k =
      match dictGet u k with
      | some v => some v
      | none => dictGet d k := by
  induction u generalizing d with
  | nil => simp [dictUpdate, dictGet, List.lookup]
  | cons p u ih =>
    obtain ⟨k0, v0⟩ := p
    have hu' : (u.map Prod.fst).Nodup := (List.nodup_cons.mp hu).2
    have hk0 : k0 ∉ u.map Prod.fst := (List.nodup_cons.mp hu).1
    have hstep : dictUpdate d ((k0, v0) :: u) = dictUpdate (dictSet d k0 v0) u := rfl
    rw [hstep, ih _ hu']
    by_cases hq : k = k0
    · subst hq
      have h1 : dictGet u k = none := lookup_eq_none_of_not_mem_keys hk0
      have h2 : dictGet ((k, v0) :: u) k = some v0 := by
        unfold dictGet
        rw [List.lookup]
        simp
      rw [h1, h2, dictGet_dictSet_self]
    · have h2 : dictGet ((k0, v0) :: u) k = dictGet u k := by
        unfold dictGet
        rw [List.lookup]
        have : (k == k0) = false := beq_eq_false_iff_ne.mpr hq
        rw [this]
      rw [h2, dictGet_dictSet_ne _ _ _ hq]

theorem dictGet_mergeRecord_last_modified (c updates : Character) (now : String) :
    dictGet (CharacterStore.mergeRecord c updates now) "last_modified" = some (.vstr now) :=
  dictGet_dictSet_self _ _ _

theorem dictGet_mergeRecord_ne (c updates : Character) (now : String)
    (hu : (updates.map Prod.fst).Nodup) {k : String} (hk : k ≠ "last_modified") :
    dictGet (CharacterStore.mergeRecord c updates now) k =
      match dictGet updates k with
      | some v => some v
      | none => dictGet c k := by
  unfold CharacterStore.mergeRecord
  rw [dictGet_dictSet_ne _ _ _ hk]
  exact dictGet_dictUpdate c updates hu k

namespace CharacterStore

/-- Claim C5: adding a record whose nonempty name is already present
case-insensitively fails with DuplicateName and changes neither the
in-memory store nor the persisted record set; adding a fresh name appends
the record, with `created_at` and `last_modified` stamped exactly when
absent and all other fields untouched. -/
theorem add_spec (st : StoreState) (disk : List Character) (c : Character) (now : String)
    (hn : getNameStr c ≠ "") :
    ((∃ c0 ∈ st.characters, pyLower (getNameStr c0) = pyLower (getNameStr c)) →
        add st disk c now =
          (.error (.duplicateName ("Character \x27" ++
              ((dictGet c "name").map pyStr).getD "None" ++ "\x27 already exists.")),
            st, disk)) ∧
    ((∀ c0 ∈ st.characters, pyLower (getNameStr c0) ≠ pyLower (getNameStr c)) →
        add st disk c now =
          (.ok (stampNew c now), ⟨st.characters ++ [stampNew c now]⟩,
            st.characters ++ [stampNew c now]) ∧
        dictGet (stampNew c now) "created_at" =
          some ((dictGet c "created_at").getD (.vstr now)) ∧
        dictGet (stampNew c now) "last_modified" =
          some ((dictGet c "last_modified").getD (.vstr now)) ∧
        ∀ k, k ≠ "created_at" → k ≠ "last_modified" →
          dictGet (stampNew c now) k = dictGet c k) := by
  constructor
  · rintro ⟨c0, hc0, heq⟩
    have hfind : (st.characters.find?
        (fun x => pyLower (getNameStr x) == pyLower (getNameStr c))).isSome := by
      rw [List.find?_isSome]
      exact ⟨c0, hc0, beq_iff_eq.mpr heq⟩
    obtain ⟨c1, hc1⟩ := Option.isSome_iff_exists.mp hfind
    have hp0 := List.find?_some hc1
    have hp1 : pyLower (getNameStr c1) = pyLower (getNameStr c) := beq_iff_eq.mp hp0
    have hname1 : getNameStr c1 ≠ "" := by
      intro he
      apply hn
      rw [← pyLower_empty_iff]
      rw [← hp1, he]
      rfl
    obtain ⟨v, hv⟩ := name_key_of_getNameStr_ne hname1
    have hne : c1 ≠ [] := lookup_ne_nil hv
    have htruthy : truthyOptChar (get st (getNameStr c)) = true := by
      unfold get truthyOptChar
      rw [hc1]
      simpa [List.isEmpty_iff]
    unfold add
    rw [htruthy]
    simp
  · intro hfresh
    have hfind : st.characters.find?
        (fun x => pyLower (getNameStr x) == pyLower (getNameStr c)) = none := by
      rw [List.find?_eq_none]
      intro x hx
      simpa using hfresh x hx
    have htruthy : truthyOptChar (get st (getNameStr c)) = false := by
      unfold get truthyOptChar
      rw [hfind]
    refine ⟨by unfold add; rw [htruthy]; simp, ?_, ?_, ?_⟩
    · unfold stampNew
      rw [dictGet_setdefault_ne _ _ _ (by decide),
        dictGet_setdefault_self]
    · unfold stampNew
      rw [dictGet_setdefault_self,
        dictGet_setdefault_ne _ _ _ (by decide)]
    · intro k hk1 hk2
      unfold stampNew
      rw [dictGet_setdefault_ne _ _ _ hk2, dictGet_setdefault_ne _ _ _ hk1]

/-- Witness for C5 at concrete records: a case-insensitive duplicate is
rejected leaving memory and disk unchanged, and a fresh record is stored
with stamped timestamps. -/
theorem add_spec_witness :
    (getNameStr [("name", Value.vstr "elena")] ≠ "" ∧
      CharacterStore.add ⟨[[("name", Value.vstr "Elena")]]⟩ [[("name", Value.vstr "Elena")]]
          [("name", Value.vstr "elena")] "2024-05-05T00:00:00Z" =
        (.error (.duplicateName "Character \x27elena\x27 already exists."),
          ⟨[[("name", Value.vstr "Elena")]]⟩, [[("name", Value.vstr "Elena")]])) ∧
    (CharacterStore.add ⟨[]⟩ [] [("name", Value.vstr "Marcus")] "2024-05-05T00:00:00Z" =
        (.ok [("name", Value.vstr "Marcus"),
              ("created_at", Value.vstr "2024-05-05T00:00:00Z"),
              ("last_modified", Value.vstr "2024-05-05T00:00:00Z")],
          ⟨[[("name", Value.vstr "Marcus"),
             ("created_at", Value.vstr "2024-05-05T00:00:00Z"),
             ("last_modified", Value.vstr "2024-05-05T00:00:00Z")]]⟩,
          [[("name", Value.vstr "Marcus"),
            ("created_at", Value.vstr "2024-05-05T00:00:00Z"),
            ("last_modified", Value.vstr "2024-05-05T00:00:00Z")]])) := by
  constructor
  · refine ⟨by decide, ?_⟩
    exact (add_spec ⟨[[("name", Value.vstr "Elena")]]⟩ [[("name", Value.vstr "Elena")]]
      [("name", Value.vstr "elena")] "2024-05-05T00:00:00Z" (by decide)).1
      ⟨[("name", Value.vstr "Elena")], by simp, by decide⟩
  · exact ((add_spec ⟨[]⟩ [] [("name", Value.vstr "Marcus")] "2024-05-05T00:00:00Z"
      (by decide)).2 (by simp)).1

theorem updateChars_of_find?_none {chars : List Character} {name : String}
    (updates : Character) (now : String)
    (h : chars.find? (fun x => pyLower (getNameStr x) == pyLower name) = none) :
    updateChars chars name updates now = none := by
  induction chars with
  | nil => rfl
  | cons c rest ih =>
    rw [List.find?_cons] at h
    cases hb : pyLower (getNameStr c) == pyLower name with
    | true => rw [hb] at h; simp at h
    | false =>
      rw [hb] at h
      simp only [cond_false] at h
      unfold updateChars
      simp only [hb, Bool.false_eq_true, if_false]
      rw [ih h]

theorem updateChars_of_find?_some {chars : List Character} {name : String} {c : Character}
    (updates : Character) (now : String)
    (h : chars.find? (fun x => pyLower (getNameStr x) == pyLower name) = some c) :
    ∃ l, updateChars chars name updates now = some (mergeRecord c updates now, l) := by
  induction chars with
  | nil => simp [List.find?] at h
  | cons c0 rest ih =>
    rw [List.find?_cons] at h
    cases hb : pyLower (getNameStr c0) == pyLower name with
    | true =>
      rw [hb] at h
      simp only [cond_true, Option.some.injEq] at h
      subst h
      unfold updateChars
      simp only [hb, if_true]
      exact ⟨mergeRecord c0 updates now :: rest, rfl⟩
    | false =>
      rw [hb] at h
      simp only [cond_false] at h
      obtain ⟨l, hl⟩ := ih h
      unfold updateChars
      simp only [hb, Bool.false_eq_true, if_false]
      rw [hl]
      exact ⟨c0 :: l, rfl⟩

/-- Claim C6: when a record matches the given name case-insensitively,
`update` returns the shallow merge — fields present in the partial update
take the partial's value, absent fields keep the stored value, and
`last_modified` is refreshed — and persists the updated list; when no
record matches, it fails with NotFound and changes nothing. -/
theorem update_spec (st : StoreState) (disk : List Character) (name : String)
    (updates : Character) (now : String) (hu : (updates.map Prod.fst).Nodup) :
    ((get st name = none) →
        update st disk name updates now =
          (.error (.notFound ("Character \x27" ++ name ++ "\x27 not found.")), st, disk)) ∧
    (∀ c, get st name = some c →
        (∃ chars', update st disk name updates now =
            (.ok (mergeRecord c updates now), ⟨chars'⟩, chars')) ∧
        dictGet (mergeRecord c updates now) "last_modified" = some (.vstr now) ∧
        ∀ k, k ≠ "last_modified" →
          dictGet (mergeRecord c updates now) k =
            match dictGet updates k with
            | some v => some v
            | none => dictGet c k) := by
  constructor
  · intro h
    unfold update
    rw [updateChars_of_find?_none updates now h]
  · intro c h
    refine ⟨?_, dictGet_mergeRecord_last_modified c updates now,
      fun k hk => dictGet_mergeRecord_ne c updates now hu hk⟩
    obtain ⟨l, hl⟩ := updateChars_of_find?_some updates now h
    exact ⟨l, by unfold update; rw [hl]⟩

/-- Witness for C6: updating a stored record by a partial update overrides
the fields present in the partial, keeps the others, refreshes
`last_modified`, and a missing name yields NotFound. -/
theorem update_spec_witness :
    ((∃ chars', CharacterStore.update ⟨[[("name", Value.vstr "Marcus"), ("age", Value.vint 30)]]⟩
          [[("name", Value.vstr "Marcus"), ("age", Value.vint 30)]] "marcus"
          [("role", Value.vstr "love interest")] "2024-06-06T00:00:00Z" =
        (.ok (mergeRecord [("name", Value.vstr "Marcus"), ("age", Value.vint 30)]
            [("role", Value.vstr "love interest")] "2024-06-06T00:00:00Z"),
          ⟨chars'⟩, chars')) ∧
      dictGet (mergeRecord [("name", Value.vstr "Marcus"), ("age", Value.vint 30)]
          [("role", Value.vstr "love interest")] "2024-06-06T00:00:00Z") "last_modified" =
        some (.vstr "2024-06-06T00:00:00Z") ∧
      ∀ k, k ≠ "last_modified" →
        dictGet (mergeRecord [("name", Value.vstr "Marcus"), ("age", Value.vint 30)]
            [("role", Value.vstr "love interest")] "2024-06-06T00:00:00Z") k =
          match dictGet [("role", Value.vstr "love interest")] k with
          | some v => some v
          | none => dictGet [("name", Value.vstr "Marcus"), ("age", Value.vint 30)] k) ∧
    CharacterStore.update ⟨[]⟩ [] "Zoe" [] "2024-06-06T00:00:00Z" =
      (.error (.notFound "Character \x27Zoe\x27 not found."), ⟨[]⟩, []) := by
  constructor
  · exact (update_spec ⟨[[("name", Value.vstr "Marcus"), ("age", Value.vint 30)]]⟩
      [[("name", Value.vstr "Marcus"), ("age", Value.vint 30)]] "marcus"
      [("role", Value.vstr "love interest")] "2024-06-06T00:00:00Z" (by decide)).2
      [("name", Value.vstr "Marcus"), ("age", Value.vint 30)] rfl
  · exact (update_spec ⟨[]⟩ [] "Zoe" [] "2024-06-06T00:00:00Z" (by decide)).1 rfl

end CharacterStore

/-! ## File system model and project paths

Files are an association list from path strings to contents; a write
shadows the previous binding.  Directories are implicit (the `mkdir`
calls in the source only ensure parents exist and carry no other
observable effect in this model). -/

/-- The file-system state. -/
abbrev FS := List (String × String)

/-- Content of the file at `p`, `none` when the path does not exist. -/
def fsGet (fs : FS) (p : String) : Option String := List.lookup p fs

/-- Model of `Path.write_text`: overwrite (or create) the file. -/
def fsWrite (fs : FS) (p c : String) : FS := (p, c) :: fs

/-- Model of `open(p, "a")` followed by writes: append to the existing
content, creating the file when absent. -/
def fsAppend (fs : FS) (p s : String) : FS := fsWrite fs p (((fsGet fs p).getD "") ++ s)

/-- Model of `config.ProjectPaths`, with paths as slash-joined strings. -/
structure ProjectPaths where
  root : String
  config_dir : String
  config_file : String
  characters_file : String
  metadata_file : String
  consistency_dir : String
  chapters_dir : String
  scenes_dir : String
  notes_dir : String
  exports_dir : String

/-- Model of `config.get_project_paths`. -/
def get_project_paths (root : String) : ProjectPaths :=
  { root := root
    config_dir := root ++ "/.calliope"
    config_file := root ++ "/.calliope/config.yaml"
    characters_file := root ++ "/.calliope/characters.yaml"
    metadata_file := root ++ "/.calliope/metadata.yaml"
    consistency_dir := root ++ "/.calliope/consistency_reports"
    chapters_dir := root ++ "/chapters"
    scenes_dir := root ++ "/scenes"
    notes_dir := root ++ "/notes"
    exports_dir := root ++ "/exports" }

/-- Model of `Path.name`: the final path component. -/
def fileNameOf (p : String) : String :=
  ⟨p.data.foldl (fun acc c => if c = '/' then [] else acc ++ [c]) []⟩

/-- Model of `file.relative_to(paths.root)` for files under the root
(strip the `root/` prefix); other files are returned unchanged — the
resulting string only feeds the prompt text and no claim depends on it. -/
def relativeToRoot (root p : String) : String :=
  if p.data.take (root.data.length + 1) = root.data ++ ['/'] then
    ⟨p.data.drop (root.data.length + 1)⟩
  else p

/-! ## The consistency checker (`consistency.run_consistency_check`) -/

/-- Errors a consistency run can surface: the explicit `ValueError` for
missing usable input (the spec's ValidationError), or a provider/gateway
failure propagated unchanged. -/
inductive CheckError (ε : Type) where
  | validation : String → CheckError ε
  | gateway : ε → CheckError ε

/-- The fixed system prompt passed by `run_consistency_check`. -/
def CONSISTENCY_SYSTEM_PROMPT : String :=
  "You are an editorial assistant focused on continuity and consistency."

/-- The `CONSISTENCY_PROMPT` template with its two placeholders filled. -/
def consistency_prompt_fmt (character_database text : String) : String :=
  "You are a fiction writing assistant checking for character consistency.\n\nCharacter Database:\n"
    ++ character_database ++
    "\n\nText being analyzed:\n" ++ text ++
    "\n\nCheck for:\n1. Physical description contradictions\n2. Personality inconsistencies\n3. Relationship status changes that don\x27t align\n4. Timeline issues\n\nOutput format:\nCONSISTENT: [list any consistent elements]\nWARNINGS: [list potential issues]\nCONTRADICTIONS: [list clear contradictions with line references]\n"

/-- Model of `consistency._character_database_dump`: per record the name
(default `"Unknown"`), then one `- key: value` line per non-name field,
then a blank line; joined and stripped. -/
def character_database_dump (st : StoreState) : String :=
  pyStrip (pyJoin "\n" (st.characters.foldl (fun acc c =>
    acc ++ [pyStr ((dictGet c "name").getD (.vstr "Unknown"))] ++
      (c.filter (fun kv => kv.1 != "name")).map
        (fun kv => "- " ++ kv.1 ++ ": " ++ pyStr kv.2) ++
      [""]) []))

/-- The file-reading loop of `run_consistency_check`: accumulate the
labeled snippets and the mention-report lines over the given files,
silently skipping paths that do not exist. -/
def gatherParts (paths : ProjectPaths) (st : StoreState) (files : List String) (fs : FS) :
    List String × List String :=
  files.foldl (fun acc file =>
    match fsGet fs file with
    | none => acc
    | some text =>
      let mentions := extract_mentions text (CharacterStore.list_names st)
      (acc.1 ++ ["# File: " ++ relativeToRoot paths.root file, text],
        if !mentions.isEmpty then
          acc.2 ++ ((fileNameOf file ++ ":") ::
            mentions.map (fun m =>
              "  - " ++ m.1 ++ ": lines " ++ pyJoin ", " (m.2.map (fun n => toString n))))
        else acc.2)) ([], [])

/-- The full prompt sent to the provider by a consistency run. -/
def consistencyPromptOf (st : StoreState) (snippets : List String) : String :=
  let db := character_database_dump st
  consistency_prompt_fmt (if db.isEmpty then "No characters defined yet." else db)
    (pyJoin "\n\n" snippets)

/-- The report file name: the timestamp with `:` and `-` stripped plus
`.txt`. -/
def reportFileName (now : String) : String :=
  replaceChar (replaceChar now ':' "") '-' "" ++ ".txt"

/-- The text written to the report file: fixed header, optional Mentions
block, then the stripped provider output, one item per line. -/
def reportContent (mention_report : List String) (output : String) : String :=
  pyJoin "\n" (["Calliope Character Consistency Report", ""] ++
    (if !mention_report.isEmpty then "Mentions:" :: mention_report ++ [""] else []) ++
    [pyStrip output, ""])

/-- Model of `consistency.run_consistency_check`.  `gen` is the provider's
`generate` (prompt, system prompt, temperature); `now` the timestamp the
source takes from `now_iso()`.  The second component is the file system
after the call — unchanged whenever an error is raised, since the only
write happens last. -/
def run_consistency_check {ε : Type} (gen : String → String → Value → Except ε String)
    (paths : ProjectPaths) (st : StoreState) (files : List String) (fs : FS)
    (now : String) : Except (CheckError ε) String × FS :=
  let parts := gatherParts paths st files fs
  if parts.1.isEmpty then
    (.error (.validation "No valid files provided for consistency check."), fs)
  else
    match gen (consistencyPromptOf st parts.1) CONSISTENCY_SYSTEM_PROMPT (.vint 0) with
    | .error e => (.error (.gateway e), fs)
    | .ok output =>
      let rpath := paths.consistency_dir ++ "/" ++ reportFileName now
      (.ok rpath, fsWrite fs rpath (reportContent parts.2 output))

/-! ## Lemmas about the consistency checker -/

theorem foldl_skip {α β : Type} (step : β → α → β) (keep : α → Bool)
    (hstep : ∀ b a, keep a = false → step b a = b) :
    ∀ (l : List α) (init : β), l.foldl step init = (l.filter keep).foldl step init := by
  intro l
  induction l with
  | nil => intro init; rfl
  | cons a l ih =>
    intro init
    rw [List.foldl_cons, List.filter_cons]
    cases hk : keep a with
    | true => rw [if_pos rfl, List.foldl_cons]; exact ih _
    | false => rw [hstep init a hk, if_neg (by simp)]; exact ih _

theorem gatherParts_filter (paths : ProjectPaths) (st : StoreState) (files : List String)
    (fs : FS) :
    gatherParts paths st files fs =
      gatherParts paths st (files.filter (fun f => (fsGet fs f).isSome)) fs := by
  unfold gatherParts
  apply foldl_skip
  intro b a hk
  cases hf : fsGet fs a with
  | none => rfl
  | some t => rw [hf] at hk; simp at hk

/-- Claim C2: missing paths are skipped (the run behaves exactly as if
they were not given), and when no input file exists the run fails with
the ValidationError and leaves the file system — in particular the
reports directory — unchanged. -/
theorem run_consistency_check_validation {ε : Type}
    (gen : String → String → Value → Except ε String) (paths : ProjectPaths)
    (st : StoreState) (files : List String) (fs : FS) (now : String) :
    run_consistency_check gen paths st files fs now =
      run_consistency_check gen paths st (files.filter (fun f => (fsGet fs f).isSome)) fs now ∧
    ((∀ f ∈ files, fsGet fs f = none) →
      run_consistency_check gen paths st files fs now =
        (.error (.validation "No valid files provided for consistency check."), fs)) := by
  constructor
  · unfold run_consistency_check
    rw [gatherParts_filter]
  · intro h
    have hfil : files.filter (fun f => (fsGet fs f).isSome) = [] := by
      rw [List.filter_eq_nil_iff]
      intro f hf
      rw [h f hf]
      simp
    unfold run_consistency_check
    rw [gatherParts_filter, hfil]
    rfl

/-- Witness for C2: a run over one nonexistent path errors and writes
nothing. -/
theorem run_consistency_check_validation_witness :
    (∀ f ∈ ["r/ghost.md"], fsGet ([] : FS) f = none) ∧
    run_consistency_check (fun _ _ _ => (Except.ok "x" : Except String String))
        (get_project_paths "r") ⟨[]⟩ ["r/ghost.md"] [] "2024-01-01T00:00:00Z" =
      (.error (.validation "No valid files provided for consistency check."), []) :=
  ⟨by decide,
    (run_consistency_check_validation (fun _ _ _ => (Except.ok "x" : Except String String))
      (get_project_paths "r") ⟨[]⟩ ["r/ghost.md"] [] "2024-01-01T00:00:00Z").2 (by decide)⟩

/-- Claim C4: when the provider's generate call fails, the error
propagates unchanged (wrapped only by the gateway constructor, with the
same payload) and the file system is unchanged — no retry, no partial
report. -/
theorem run_consistency_check_gateway_error {ε : Type}
    (gen : String → String → Value → Except ε String) (paths : ProjectPaths)
    (st : StoreState) (files : List String) (fs : FS) (now : String) (e : ε)
    (hs : (gatherParts paths st files fs).1.isEmpty = false)
    (hg : gen (consistencyPromptOf st (gatherParts paths st files fs).1)
        CONSISTENCY_SYSTEM_PROMPT (.vint 0) = .error e) :
    run_consistency_check gen paths st files fs now = (.error (.gateway e), fs) := by
  unfold run_consistency_check
  simp only [hs, Bool.false_eq_true, if_false, hg]

/-- Witness for C4: a failing provider's error payload is surfaced and no
file is written. -/
theorem run_consistency_check_gateway_error_witness :
    (gatherParts (get_project_paths "r") ⟨[]⟩ ["r/f.md"] [("r/f.md", "Elena walks.")]).1.isEmpty
        = false ∧
    run_consistency_check (fun _ _ _ => (Except.error "boom" : Except String String))
        (get_project_paths "r") ⟨[]⟩ ["r/f.md"] [("r/f.md", "Elena walks.")]
        "2024-01-01T00:00:00Z" =
      (.error (.gateway "boom"), [("r/f.md", "Elena walks.")]) :=
  ⟨rfl,
    run_consistency_check_gateway_error (fun _ _ _ => (Except.error "boom" : Except String String))
      (get_project_paths "r") ⟨[]⟩ ["r/f.md"] [("r/f.md", "Elena walks.")]
      "2024-01-01T00:00:00Z" "boom" rfl rfl⟩

/-- The Mentions block as it appears inside the report text. -/
def mentionsBlock (mention_report : List String) : String :=
  if mention_report.isEmpty then ""
  else "Mentions:\n" ++ pyJoin "\n" mention_report ++ "\n\n"

theorem pyJoin_cons_cons (sep x y : String) (l : List String) :
    pyJoin sep (x :: y :: l) = x ++ sep ++ pyJoin sep (y :: l) := rfl

theorem empty_append_str (s : String) : "" ++ s = s := by
  cases s
  rfl

theorem pyJoin_append (sep : String) (l₁ l₂ : List String) (h : l₂ ≠ []) :
    pyJoin sep (l₁ ++ l₂) =
      match l₁ with
      | [] => pyJoin sep l₂
      | _ :: _ => pyJoin sep l₁ ++ sep ++ pyJoin sep l₂ := by
  induction l₁ with
  | nil => rfl
  | cons a l₁ ih =>
    cases l₁ with
    | nil =>
      obtain ⟨b, l₂', rfl⟩ : ∃ b l₂', l₂ = b :: l₂' := by
        cases l₂ with
        | nil => exact absurd rfl h
        | cons b t => exact ⟨b, t, rfl⟩
      rfl
    | cons c l₁ =>
      have hcc : pyJoin sep ((a :: c :: l₁) ++ l₂) =
          a ++ sep ++ pyJoin sep ((c :: l₁) ++ l₂) := rfl
      rw [hcc, ih, pyJoin_cons_cons]
      simp only [String.append_assoc]

theorem str_eq_of_data {s t : String} (h : s.data = t.data) : s = t := by
  cases s
  cases t
  exact congrArg String.mk h

theorem pyJoin_append_cons (sep a : String) (l₁ l₂ : List String) (h : l₂ ≠ []) :
    pyJoin sep ((a :: l₁) ++ l₂) = pyJoin sep (a :: l₁) ++ sep ++ pyJoin sep l₂ := by
  rw [pyJoin_append sep (a :: l₁) l₂ h]

theorem reportContent_eq (mention_report : List String) (output : String) :
    reportContent mention_report output =
      "Calliope Character Consistency Report\n\n" ++ mentionsBlock mention_report ++
        pyStrip output ++ "\n" := by
  unfold reportContent mentionsBlock
  cases mention_report with
  | nil =>
    show pyJoin "\n" ["Calliope Character Consistency Report", "", pyStrip output, ""] =
      "Calliope Character Consistency Report\n\n" ++ "" ++ pyStrip output ++ "\n"
    have h1 : pyJoin "\n" ["Calliope Character Consistency Report", "", pyStrip output, ""] =
        "Calliope Character Consistency Report" ++ "\n" ++
          ("" ++ "\n" ++ (pyStrip output ++ "\n" ++ "")) := rfl
    rw [h1, String.append_empty, empty_append_str,
      show ("Calliope Character Consistency Report\n\n" : String) =
        "Calliope Character Consistency Report" ++ "\n" ++ "\n" from rfl,
      String.append_empty]
    simp only [String.append_assoc]
  | cons m ms =>
    show pyJoin "\n" (["Calliope Character Consistency Report", ""] ++
        ("Mentions:" :: (m :: ms) ++ [""]) ++ [pyStrip output, ""]) =
      "Calliope Character Consistency Report\n\n" ++
        ("Mentions:\n" ++ pyJoin "\n" (m :: ms) ++ "\n\n") ++ pyStrip output ++ "\n"
    have h1 : ["Calliope Character Consistency Report", ""] ++
        ("Mentions:" :: (m :: ms) ++ [""]) ++ [pyStrip output, ""] =
        "Calliope Character Consistency Report" :: "" :: "Mentions:" ::
          ((m :: ms) ++ ["", pyStrip output, ""]) := by simp
    rw [h1]
    have h2 : pyJoin "\n" ("Calliope Character Consistency Report" :: "" :: "Mentions:" ::
        ((m :: ms) ++ ["", pyStrip output, ""])) =
        "Calliope Character Consistency Report" ++ "\n" ++ ("" ++ "\n" ++
          ("Mentions:" ++ "\n" ++ pyJoin "\n" ((m :: ms) ++ ["", pyStrip output, ""]))) := by
      rw [pyJoin_cons_cons, pyJoin_cons_cons]
      have : pyJoin "\n" ("Mentions:" :: ((m :: ms) ++ ["", pyStrip output, ""])) =
          "Mentions:" ++ "\n" ++ pyJoin "\n" ((m :: ms) ++ ["", pyStrip output, ""]) := rfl
      rw [this]
    rw [h2, pyJoin_append_cons "\n" m ms ["", pyStrip output, ""] (by simp)]
    have h3 : pyJoin "\n" ["", pyStrip output, ""] =
        "" ++ "\n" ++ (pyStrip output ++ "\n" ++ "") := rfl
    rw [h3, String.append_empty, empty_append_str,
      show ("Calliope Character Consistency Report\n\n" : String) =
        "Calliope Character Consistency Report" ++ "\n" ++ "\n" from rfl,
      show ("Mentions:\n" : String) = "Mentions:" ++ "\n" from rfl,
      show ("\n\n" : String) = "\n" ++ "\n" from rfl]
    simp only [String.append_assoc]

theorem containsSub_of_split (A need B : String) :
    containsSub (A ++ need ++ B) need = true := by
  unfold containsSub
  rw [List.any_eq_true]
  refine ⟨A.data.length, ?_, ?_⟩
  · rw [List.mem_range]
    have hd : (A ++ need ++ B).data = A.data ++ (need.data ++ B.data) := by
      rw [String.data_append, String.data_append, List.append_assoc]
    rw [hd, List.length_append, List.length_append]
    omega
  · apply decide_eq_true
    have hd : (A ++ need ++ B).data = A.data ++ (need.data ++ B.data) := by
      rw [String.data_append, String.data_append, List.append_assoc]
    rw [hd, List.drop_left]
    have : need.data.length = need.data.length := rfl
    calc (need.data ++ B.data).take need.data.length = need.data := List.take_left _ _
      _ = need.data := rfl

theorem reportContent_ne_empty (mention_report : List String) (output : String) :
    reportContent mention_report output ≠ "" := by
  intro h
  have hd := congrArg String.data h
  rw [reportContent_eq] at hd
  rw [String.data_append, String.data_append, String.data_append] at hd
  simp at hd

/-- Claim C3 (amended): a successful run writes, at the timestamped path
under the reports directory, exactly the fixed header, then the Mentions
block when at least one character was mentioned, then the provider output
stripped of leading and trailing whitespace; that stripped output appears
verbatim in the report and the report is non-empty.  (The raw output
itself appears verbatim whenever it carries no surrounding whitespace, as
with the remote backends, which strip their payloads.) -/
theorem run_consistency_check_report_structure {ε : Type}
    (gen : String → String → Value → Except ε String) (paths : ProjectPaths)
    (st : StoreState) (files : List String) (fs : FS) (now : String) (output : String)
    (hs : (gatherParts paths st files fs).1.isEmpty = false)
    (hg : gen (consistencyPromptOf st (gatherParts paths st files fs).1)
        CONSISTENCY_SYSTEM_PROMPT (.vint 0) = .ok output) :
    run_consistency_check gen paths st files fs now =
      (.ok (paths.consistency_dir ++ "/" ++ reportFileName now),
        fsWrite fs (paths.consistency_dir ++ "/" ++ reportFileName now)
          (reportContent (gatherParts paths st files fs).2 output)) ∧
    reportContent (gatherParts paths st files fs).2 output =
      "Calliope Character Consistency Report\n\n" ++
        mentionsBlock (gatherParts paths st files fs).2 ++ pyStrip output ++ "\n" ∧
    containsSub (reportContent (gatherParts paths st files fs).2 output)
      (pyStrip output) = true ∧
    reportContent (gatherParts paths st files fs).2 output ≠ "" := by
  refine ⟨?_, reportContent_eq _ _, ?_, reportContent_ne_empty _ _⟩
  · unfold run_consistency_check
    simp only [hs, Bool.false_eq_true, if_false, hg]
  · rw [reportContent_eq]
    exact containsSub_of_split _ _ _

/-- Counterexample to claim C3 as stated: the report holds
`output.strip()`, not the raw provider output.  With a provider returning
`" X "`, the written report is the header plus `"X"`, and the returned
text `" X "` does not occur verbatim anywhere in the report. -/
theorem run_consistency_check_verbatim_counterexample :
    run_consistency_check (fun _ _ _ => (Except.ok " X " : Except String String))
        (get_project_paths "r") ⟨[]⟩ ["r/f.md"] [("r/f.md", "hello")]
        "2024-01-01T00:00:00Z" =
      (.ok "r/.calliope/consistency_reports/20240101T000000Z.txt",
        [("r/.calliope/consistency_reports/20240101T000000Z.txt",
            "Calliope Character Consistency Report\n\nX\n"),
          ("r/f.md", "hello")]) ∧
    containsSub "Calliope Character Consistency Report\n\nX\n" " X " = false := by
  constructor
  · rfl
  · rfl

/-- Witness for C3's amended theorem at the spec's own example provider
output. -/
theorem run_consistency_check_report_structure_witness :
    run_consistency_check
        (fun _ _ _ =>
          (Except.ok "CONSISTENT: []\nWARNINGS: []\nCONTRADICTIONS: []" : Except String String))
        (get_project_paths "r") ⟨[[("name", Value.vstr "Elena")]]⟩ ["r/scene.md"]
        [("r/scene.md", "Elena walks into the room.")] "2024-01-01T00:00:00Z" =
      (.ok "r/.calliope/consistency_reports/20240101T000000Z.txt",
        fsWrite [("r/scene.md", "Elena walks into the room.")]
          "r/.calliope/consistency_reports/20240101T000000Z.txt"
          (reportContent
            (gatherParts (get_project_paths "r") ⟨[[("name", Value.vstr "Elena")]]⟩
              ["r/scene.md"] [("r/scene.md", "Elena walks into the room.")]).2
            "CONSISTENT: []\nWARNINGS: []\nCONTRADICTIONS: []")) ∧
    containsSub
      (reportContent
        (gatherParts (get_project_paths "r") ⟨[[("name", Value.vstr "Elena")]]⟩
          ["r/scene.md"] [("r/scene.md", "Elena walks into the room.")]).2
        "CONSISTENT: []\nWARNINGS: []\nCONTRADICTIONS: []")
      (pyStrip "CONSISTENT: []\nWARNINGS: []\nCONTRADICTIONS: []") = true := by
  have h := run_consistency_check_report_structure
    (fun _ _ _ =>
      (Except.ok "CONSISTENT: []\nWARNINGS: []\nCONTRADICTIONS: []" : Except String String))
    (get_project_paths "r") ⟨[[("name", Value.vstr "Elena")]]⟩ ["r/scene.md"]
    [("r/scene.md", "Elena walks into the room.")] "2024-01-01T00:00:00Z"
    "CONSISTENT: []\nWARNINGS: []\nCONTRADICTIONS: []" rfl rfl
  exact ⟨h.1, h.2.2.1⟩

/-! ## The scene generator (`scene_generator.generate_scene`) -/

/-- The fixed system prompt passed by `generate_scene`. -/
def SCENE_SYSTEM_PROMPT : String :=
  "You are a fiction writing assistant crafting emotionally resonant scenes."

/-- One relationship line of a character summary block
(`    - partner (type) notes`).  A non-dict entry is rendered with the
defaults (the Python code would fail on such malformed data). -/
def relationshipLine (rel : Value) : String :=
  match rel with
  | .vdict d =>
    "    - " ++ pyStr ((List.lookup "character" d).getD (.vstr "Unknown")) ++ " (" ++
      pyStr ((List.lookup "type" d).getD (.vstr "relationship")) ++ ") " ++
      pyStr ((List.lookup "notes" d).getD (.vstr ""))
  | _ => "    - Unknown (relationship) "

/-- The relationship lines for the `relationships` value (a list in
well-formed data). -/
def relationshipLines (rels : Value) : List String :=
  match rels with
  | .vlist l => l.map relationshipLine
  | _ => []

/-- Model of `scene_generator.build_character_context`: one summary block
per named character found in the store (unknown names and falsy records
silently skipped), or the fixed placeholder when no block was built. -/
def build_character_context (st : StoreState) (character_names : List String) : String :=
  let blocks := character_names.filterMap (fun name =>
    match CharacterStore.get st name with
    | none => none
    | some character =>
      if character.isEmpty then none
      else
        some (pyJoin "\n"
          (["- " ++ pyStr ((dictGet character "name").getD (.vstr name))] ++
            ([("age", "Age"), ("physical", "Physical"), ("personality", "Personality"),
              ("backstory", "Backstory"), ("role", "Role")].filterMap (fun f =>
                match dictGet character f.1 with
                | some v =>
                  if pyTruthy v then some ("  " ++ f.2 ++ ": " ++ pyStr v) else none
                | none => none)) ++
            (match dictGet character "relationships" with
             | some rels =>
               if pyTruthy rels then "  Relationships:" :: relationshipLines rels else []
             | none => []))))
  if blocks.isEmpty then "No character details available." else pyJoin "\n" blocks

/-- Model of `config.get("project", {}).get("genre", "romance")`. -/
def configGenre (config : List (String × Value)) : String :=
  match List.lookup "project" config with
  | some (.vdict p) =>
    match List.lookup "genre" p with
    | some v => pyStr v
    | none => "romance"
  | _ => "romance"

/-- Model of `config.get("ai", {}).get("temperature", 0.7)`. -/
def configTemperature (config : List (String × Value)) : Value :=
  match List.lookup "ai" config with
  | some (.vdict a) =>
    match List.lookup "temperature" a with
    | some v => v
    | none => .vrat (7 / 10)
  | _ => .vrat (7 / 10)

/-- The `PROMPT_TEMPLATE` of the scene generator with its placeholders
filled (falsy parameters already replaced by their defaults). -/
def scene_prompt_fmt (genre characters_block premise tone pov word_count
    instructions : String) : String :=
  "Write a scene for a " ++ genre ++
    " novel with the following details:\n\nCharacters involved:\n" ++ characters_block ++
    "\n\nScene premise: " ++ premise ++ "\nTone: " ++ tone ++ "\nPOV: " ++ pov ++
    "\nTarget length: ~" ++ word_count ++
    " words\n\nWrite in a natural, engaging style. Maintain character consistency with the provided details. Focus on showing rather than telling. Include sensory details and emotional depth.\n\nAdditional instructions:\n"
    ++ instructions ++ "\n"

/-- The full prompt a `generate_scene` call sends to the provider. -/
def scenePromptOf (config : List (String × Value)) (st : StoreState) (premise : String)
    (characters_involved : List String) (tone pov : String) (word_count : Nat)
    (instructions : String) : String :=
  scene_prompt_fmt (configGenre config) (build_character_context st characters_involved)
    premise
    (if tone.isEmpty then "emotional" else tone)
    (if pov.isEmpty then "third-person limited" else pov)
    (toString (if word_count = 0 then 800 else word_count))
    (if instructions.isEmpty then "None" else instructions)

/-- The scene file path: the scene name with spaces replaced by `-`,
lowercased, with `.md`, under the scenes directory. -/
def slugScenePath (paths : ProjectPaths) (scene_name : String) : String :=
  paths.scenes_dir ++ "/" ++ pyLower (replaceChar scene_name ' ' "-") ++ ".md"

/-- The labeled copy appended to the chapter file. -/
def sceneLabel (scene_name output : String) : String :=
  "\n\n# Scene: " ++ scene_name ++ "\n\n" ++ (output ++ "\n")

/-- Model of `scene_generator.generate_scene`: build the prompt, call the
provider once, write the raw output (plus a trailing newline) to the
slug-named scene file, and, when an append target is given, append the
labeled copy to `root/append_to` (the `resolve()` of the source is
modelled as the plain join; `mkdir` has no observable effect here).
The file system is unchanged when the provider fails. -/
def generate_scene {ε : Type} (gen : String → String → Value → Except ε String)
    (paths : ProjectPaths) (config : List (String × Value)) (st : StoreState)
    (scene_name premise : String) (characters_involved : List String) (tone pov : String)
    (word_count : Nat) (instructions : String) (append_to : Option String) (fs : FS) :
    Except ε String × FS :=
  match gen (scenePromptOf config st premise characters_involved tone pov word_count
      instructions) SCENE_SYSTEM_PROMPT (configTemperature config) with
  | .error e => (.error e, fs)
  | .ok output =>
    let scene_path := slugScenePath paths scene_name
    let fs1 := fsWrite fs scene_path (output ++ "\n")
    match append_to with
    | none => (.ok scene_path, fs1)
    | some t =>
      (.ok scene_path, fsAppend fs1 (paths.root ++ "/" ++ t) (sceneLabel scene_name output))

theorem fsGet_fsWrite_self (fs : FS) (p c : String) : fsGet (fsWrite fs p c) p = some c := by
  simp [fsGet, fsWrite, List.lookup]

theorem fsGet_fsWrite_ne (fs : FS) (p c : String) {q : String} (h : q ≠ p) :
    fsGet (fsWrite fs p c) q = fsGet fs q := by
  have hb : (q == p) = false := beq_eq_false_iff_ne.mpr h
  simp [fsGet, fsWrite, List.lookup, hb]

/-- Claim C7: a successful generation returns the slug-named scene path
and writes the raw output there followed by a newline; with an append
target, the target file afterwards holds exactly its prior content
followed by the labeled copy of the output (append, not overwrite), while
the scene file still holds the output. -/
theorem generate_scene_spec {ε : Type} (gen : String → String → Value → Except ε String)
    (paths : ProjectPaths) (config : List (String × Value)) (st : StoreState)
    (scene_name premise : String) (characters_involved : List String) (tone pov : String)
    (word_count : Nat) (instructions : String) (fs : FS) (output : String)
    (hg : gen (scenePromptOf config st premise characters_involved tone pov word_count
        instructions) SCENE_SYSTEM_PROMPT (configTemperature config) = .ok output) :
    (generate_scene gen paths config st scene_name premise characters_involved tone pov
        word_count instructions none fs =
      (.ok (slugScenePath paths scene_name),
        fsWrite fs (slugScenePath paths scene_name) (output ++ "\n")) ∧
      fsGet (fsWrite fs (slugScenePath paths scene_name) (output ++ "\n"))
        (slugScenePath paths scene_name) = some (output ++ "\n")) ∧
    ∀ t, generate_scene gen paths config st scene_name premise characters_involved tone pov
        word_count instructions (some t) fs =
      (.ok (slugScenePath paths scene_name),
        fsAppend (fsWrite fs (slugScenePath paths scene_name) (output ++ "\n"))
          (paths.root ++ "/" ++ t) (sceneLabel scene_name output)) ∧
      (paths.root ++ "/" ++ t ≠ slugScenePath paths scene_name →
        fsGet (fsAppend (fsWrite fs (slugScenePath paths scene_name) (output ++ "\n"))
            (paths.root ++ "/" ++ t) (sceneLabel scene_name output))
          (paths.root ++ "/" ++ t) =
          some ((fsGet fs (paths.root ++ "/" ++ t)).getD "" ++ sceneLabel scene_name output) ∧
        fsGet (fsAppend (fsWrite fs (slugScenePath paths scene_name) (output ++ "\n"))
            (paths.root ++ "/" ++ t) (sceneLabel scene_name output))
          (slugScenePath paths scene_name) = some (output ++ "\n")) := by
  constructor
  · constructor
    · unfold generate_scene
      rw [hg]
    · exact fsGet_fsWrite_self _ _ _
  · intro t
    constructor
    · unfold generate_scene
      rw [hg]
    · intro hne
      constructor
      · unfold fsAppend
        rw [fsGet_fsWrite_self, fsGet_fsWrite_ne _ _ _ hne]
      · unfold fsAppend
        rw [fsGet_fsWrite_ne _ _ _ (Ne.symm hne), fsGet_fsWrite_self]

/-- Witness for C7 at the spec's example: provider output
`"Generated scene content."`, character Elena in the store, scene name
`"First Meeting"`, append target `"chapters/ch1.md"` with prior content. -/
theorem generate_scene_spec_witness :
    generate_scene (fun _ _ _ => (Except.ok "Generated scene content." : Except String String))
        (get_project_paths "r") [] ⟨[[("name", Value.vstr "Elena")]]⟩ "First Meeting"
        "They meet." ["Elena"] "" "" 0 "" (some "chapters/ch1.md")
        [("r/chapters/ch1.md", "old text")] =
      (.ok "r/scenes/first-meeting.md",
        fsAppend (fsWrite [("r/chapters/ch1.md", "old text")] "r/scenes/first-meeting.md"
            ("Generated scene content." ++ "\n"))
          "r/chapters/ch1.md" (sceneLabel "First Meeting" "Generated scene content.")) ∧
    fsGet (fsAppend (fsWrite [("r/chapters/ch1.md", "old text")] "r/scenes/first-meeting.md"
          ("Generated scene content." ++ "\n"))
        "r/chapters/ch1.md" (sceneLabel "First Meeting" "Generated scene content."))
      "r/chapters/ch1.md" =
      some ((fsGet [("r/chapters/ch1.md", "old text")] "r/chapters/ch1.md").getD "" ++
        sceneLabel "First Meeting" "Generated scene content.") ∧
    fsGet (fsAppend (fsWrite [("r/chapters/ch1.md", "old text")] "r/scenes/first-meeting.md"
          ("Generated scene content." ++ "\n"))
        "r/chapters/ch1.md" (sceneLabel "First Meeting" "Generated scene content."))
      "r/scenes/first-meeting.md" = some ("Generated scene content." ++ "\n") := by
  have h := (generate_scene_spec
    (fun _ _ _ => (Except.ok "Generated scene content." : Except String String))
    (get_project_paths "r") [] ⟨[[("name", Value.vstr "Elena")]]⟩ "First Meeting"
    "They meet." ["Elena"] "" "" 0 "" [("r/chapters/ch1.md", "old text")]
    "Generated scene content." rfl).2 "chapters/ch1.md"
  have h2 := h.2 (by decide)
  exact ⟨h.1, h2.1, h2.2⟩

/-! ## Provider construction (`ai_providers`, claim C8)

Construction is modelled as a pure function from the availability of the
backend's client library, the settings and the process environment to
either the constructed provider state (the resolved key and the settings)
or the configuration error.  No generation function is invoked anywhere in
construction — in the failure cases the error is returned before any
client exists. -/

/-- Model of `ai_providers.ProviderSettings` (floats as rationals). -/
structure ProviderSettings where
  provider : String
  model : String := "gpt-4"
  temperature : ℚ := 7 / 10
  openai_api_key : Option String := none
  anthropic_api_key : Option String := none

/-- Python `a or b` on an optional string: `b` when `a` is `None` or
empty. -/
def pyOrStr (a b : Option String) : Option String :=
  match a with
  | some s => if s.isEmpty then b else some s
  | none => b

/-- Model of `OpenAIProvider.__init__`: import guard, then key resolution
from settings first, environment second, failing fast when both are
missing or empty. -/
def OpenAIProvider_init (openai_installed : Bool) (settings : ProviderSettings)
    (env : String → Option String) : Except String (String × ProviderSettings) :=
  if openai_installed then
    match pyOrStr settings.openai_api_key (env "OPENAI_API_KEY") with
    | none => .error "OpenAI API key is not configured."
    | some k =>
      if k.isEmpty then .error "OpenAI API key is not configured." else .ok (k, settings)
  else .error "openai package is not installed."

/-- Model of `ClaudeProvider.__init__` (same shape for the Anthropic
backend). -/
def ClaudeProvider_init (anthropic_installed : Bool) (settings : ProviderSettings)
    (env : String → Option String) : Except String (String × ProviderSettings) :=
  if anthropic_installed then
    match pyOrStr settings.anthropic_api_key (env "ANTHROPIC_API_KEY") with
    | none => .error "Anthropic API key is not configured."
    | some k =>
      if k.isEmpty then .error "Anthropic API key is not configured." else .ok (k, settings)
  else .error "anthropic package is not installed."

/-- Claim C8: for both remote backends, construction uses the configured
credential when present (ignoring the environment), falls back to the
environment variable only when the configured value is absent or empty,
and fails fast with the configuration error when neither source supplies
a credential or when the client library is unavailable; in every failure
case only the error is returned and no client state is built. -/
theorem provider_init_spec (settings : ProviderSettings) (env : String → Option String) :
    (OpenAIProvider_init false settings env = .error "openai package is not installed.") ∧
    (ClaudeProvider_init false settings env = .error "anthropic package is not installed.") ∧
    (∀ k, settings.openai_api_key = some k → k ≠ "" →
        OpenAIProvider_init true settings env = .ok (k, settings)) ∧
    (∀ k, settings.anthropic_api_key = some k → k ≠ "" →
        ClaudeProvider_init true settings env = .ok (k, settings)) ∧
    (∀ k, (settings.openai_api_key = none ∨ settings.openai_api_key = some "") →
        env "OPENAI_API_KEY" = some k → k ≠ "" →
        OpenAIProvider_init true settings env = .ok (k, settings)) ∧
    (∀ k, (settings.anthropic_api_key = none ∨ settings.anthropic_api_key = some "") →
        env "ANTHROPIC_API_KEY" = some k → k ≠ "" →
        ClaudeProvider_init true settings env = .ok (k, settings)) ∧
    ((settings.openai_api_key = none ∨ settings.openai_api_key = some "") →
        (env "OPENAI_API_KEY" = none ∨ env "OPENAI_API_KEY" = some "") →
        OpenAIProvider_init true settings env = .error "OpenAI API key is not configured.") ∧
    ((settings.anthropic_api_key = none ∨ settings.anthropic_api_key = some "") →
        (env "ANTHROPIC_API_KEY" = none ∨ env "ANTHROPIC_API_KEY" = some "") →
        ClaudeProvider_init true settings env =
          .error "Anthropic API key is not configured.") := by
  have hne : ∀ k : String, k ≠ "" → k.isEmpty = false := by
    intro k hk
    cases hke : k.isEmpty with
    | false => rfl
    | true => exact absurd ((String.isEmpty_iff k).mp hke) hk
  have hemp : ("" : String).isEmpty = true := rfl
  refine ⟨rfl, rfl, ?_, ?_, ?_, ?_, ?_, ?_⟩
  · intro k hk hk0
    unfold OpenAIProvider_init pyOrStr
    rw [hk]
    simp [hne k hk0]
  · intro k hk hk0
    unfold ClaudeProvider_init pyOrStr
    rw [hk]
    simp [hne k hk0]
  · intro k hcfg henv hk0
    unfold OpenAIProvider_init pyOrStr
    rcases hcfg with h | h <;> rw [h] <;> simp [henv, hne k hk0, hemp]
  · intro k hcfg henv hk0
    unfold ClaudeProvider_init pyOrStr
    rcases hcfg with h | h <;> rw [h] <;> simp [henv, hne k hk0, hemp]
  · intro hcfg henv
    unfold OpenAIProvider_init pyOrStr
    rcases hcfg with h | h <;> rcases henv with h2 | h2 <;> rw [h] <;> simp [h2, hemp]
  · intro hcfg henv
    unfold ClaudeProvider_init pyOrStr
    rcases hcfg with h | h <;> rcases henv with h2 | h2 <;> rw [h] <;> simp [h2, hemp]

/-- Witness for C8: a configured OpenAI key is used even with an empty
environment, a missing Anthropic key is a configuration error, and an
unavailable library fails fast. -/
theorem provider_init_spec_witness :
    OpenAIProvider_init true
        { provider := "openai", openai_api_key := some "sk-test" } (fun _ => none) =
      .ok ("sk-test", { provider := "openai", openai_api_key := some "sk-test" }) ∧
    ClaudeProvider_init true
        { provider := "claude", openai_api_key := some "sk-test" } (fun _ => none) =
      .error "Anthropic API key is not configured." ∧
    OpenAIProvider_init false { provider := "openai" } (fun _ => none) =
      .error "openai package is not installed." := by
  refine ⟨?_, ?_, ?_⟩
  · exact (provider_init_spec
      { provider := "openai", openai_api_key := some "sk-test" } (fun _ => none)).2.2.1
      "sk-test" rfl (by decide)
  · exact (provider_init_spec
      { provider := "claude", openai_api_key := some "sk-test" }
      (fun _ => none)).2.2.2.2.2.2.2 (Or.inl rfl) (Or.inl rfl)
  · exact (provider_init_spec { provider := "openai" } (fun _ => none)).1

end Calliope
